import Mathlib

/-!
Shallow embedding of the coordination layer of the enigma-core /
enigma-principal repository, together with theorems checking the
natural-language specification against the code.

The embedding covers:
* the epoch keeper of the principal enclave
  (`enigma-principal/enclave/src/epoch_keeper_t/mod.rs`);
* the deploy path of the secure task dispatcher
  (`enigma-core/app/src/wasm_u/wasm.rs`);
* the request dispatcher and its handlers
  (`enigma-core/app/src/networking/ipc_listener.rs`).

Rust machine integers are modelled as `Nat` (`Uint`/`H256` values are
abstract unsigned numbers; no arithmetic in the modelled code paths can
overflow a 256-bit word), fallible Rust code returns `Except`/`Option`,
and a Rust `panic!`/`unwrap`/out-of-bounds index is modelled by the
`panicked` outcome of `RunResult`.  External collaborators that are not
part of the repository sources (database engine, enclave boundary,
attestation service, signing key, hardware randomness) are passed in as
explicit parameters or modelled from the specification, each such
definition carrying a doc comment saying so.
-/

/-- Outcome of running a piece of Rust code that may panic (`panicked`),
return an error (`fail e`, i.e. Rust `Err(e)`), or succeed (`ok a`). -/
inductive RunResult (ε : Type) (α : Type) where
  | panicked : RunResult ε α
  | fail (e : ε) : RunResult ε α
  | ok (a : α) : RunResult ε α
deriving DecidableEq, Repr

/-- Source `EnclaveError` as used by the epoch keeper: every failure in
`epoch_keeper_t/mod.rs` is constructed as `EnclaveError::WorkerAuthError`
(the spec's `RegistrationError` family). -/
inductive EnclaveError where
  | workerAuthError (err : String) : EnclaveError
deriving DecidableEq, Repr

namespace EpochKeeper

/-- Modelled from the spec: `WorkerParams` lives in `enigma_tools_t`,
outside the repository sources; the spec says it "encodes the eligible
worker set and the randomness basis", so the payload is kept opaque as a
list of worker identities (numbers). -/
structure WorkerParams where
  payload : List Nat
deriving DecidableEq, Repr

/-- An epoch entry: seed, optional verified worker parameters, and the
reference block hash (`H256` modelled as `Nat`). -/
structure Epoch where
  seed : Nat
  worker_params : Option WorkerParams
  preverified_block_hash : Nat
deriving DecidableEq, Repr

/-- Modelled from the spec: the transaction-log type lives in
`enigma_tools_t`, outside the repository sources; `WorkerParams::try_from`
either decodes worker parameters from a log or fails, so a log is
modelled as carrying the decoding outcome. -/
structure Log where
  decoded : Option WorkerParams
deriving DecidableEq, Repr

/-- A transaction receipt: the list of its log entries. -/
structure Receipt where
  logs : List Log
deriving DecidableEq, Repr

/-- A block header; only the link to the parent block matters for the
chain-of-custody check, so it is modelled as the parent hash. -/
structure BlockHeader where
  parentHash : Nat
deriving DecidableEq, Repr

/-- The epoch register `EPOCH : HashMap<Uint, Epoch>` modelled as an
association list from nonce to epoch (most recent binding first). -/
abbrev EpochMap := List (Nat × Epoch)

/-- Association-list lookup, modelling `HashMap::get`. -/
def mapLookup : EpochMap → Nat → Option Epoch
  | [], _ => none
  | (k, v) :: rest, n => if k = n then some v else mapLookup rest n

/-- Source `guard.keys().max()` on the register. -/
def mapMaxKey : EpochMap → Option Nat
  | [] => none
  | (k, _) :: rest =>
    match mapMaxKey rest with
    | none => some k
    | some k2 => some (max k k2)

/-- Source `HashMap::insert`: returns the previous value at the key (if any)
together with the updated map. -/
def mapInsert (m : EpochMap) (k : Nat) (v : Epoch) : Option Epoch × EpochMap :=
  (mapLookup m k, (k, v) :: m.filter (fun p => p.1 != k))

/-- Source `INIT_NONCE` from the source. -/
def INIT_NONCE : Nat := 0

/-- Source `PREVERIFIED_BLOCK_HASH` from the source, the hardcoded genesis
reference hash, written as the 256-bit number the source string tokenizes
to. -/
def PREVERIFIED_BLOCK_HASH : Nat :=
  0xae67b813aa89d47d4ba4d34dcd8b77a57bd433338ac0980137f5a6ca81ff9566

/-- Source `get_epoch(guard, block_number)`: rejects any explicit block number,
returns `none` on an empty register, and otherwise the entry at the
maximum nonce (the source `unwrap`s the lookup of that key, modelled by
`panicked`). -/
def get_epoch (m : EpochMap) (block_number : Option Nat) :
    RunResult EnclaveError (Option Epoch) :=
  match block_number with
  | some _ =>
    .fail (.workerAuthError ("Epoch lookup by block number not implemented."))
  | none =>
    if m.isEmpty then .ok none
    else
      match mapMaxKey m with
      | none => .ok none
      | some nonce =>
        match mapLookup m nonce with
        | some e => .ok (some e)
        | none => .panicked

/-- The epoch built by `ecall_generate_epoch_seed_internal`: carries the
previous epoch's reference hash forward, or the hardcoded genesis hash
when the register was empty. -/
def epochFromPrev (seed : Nat) (prev : Option Epoch) : Epoch :=
  match prev with
  | some ep =>
    { seed := seed, worker_params := none,
      preverified_block_hash := ep.preverified_block_hash }
  | none =>
    { seed := seed, worker_params := none,
      preverified_block_hash := PREVERIFIED_BLOCK_HASH }

/-- The `guard.insert(nonce, new_epoch)` match of
`ecall_generate_epoch_seed_internal`, kept exactly as in the source: the
`Some(_)` arm (a previous value was replaced) is treated as success and
the `None` arm (the key was fresh) returns the `WorkerAuthError`. -/
def storeNewEpoch (m : EpochMap) (nonce : Nat) (e : Epoch) :
    RunResult EnclaveError Nat × EpochMap :=
  match mapInsert m nonce e with
  | (some _, m2) => (.ok nonce, m2)
  | (none, m2) => (.fail (.workerAuthError ("Unable to store new Epoch")), m2)

/-- Source `ecall_generate_epoch_seed_internal`.  The hardware randomness
(`rsgx_read_rand`) and the node signing key are external collaborators;
they are modelled from the spec as succeeding, the drawn randomness being
the `seed` argument (the signature written to `sig_out` does not touch the
register).  Returns the call result together with the register after the
call. -/
def ecall_generate_epoch_seed_internal (m : EpochMap) (seed : Nat) :
    RunResult EnclaveError Nat × EpochMap :=
  match get_epoch m none with
  | .panicked => (.panicked, m)
  | .fail e => (.fail e, m)
  | .ok (some prev) =>
    match mapMaxKey m with
    | none => (.panicked, m)
    | some k => storeNewEpoch m (k + 1) (epochFromPrev seed (some prev))
  | .ok none => storeNewEpoch m INIT_NONCE (epochFromPrev seed none)

/-- Modelled from the spec: `WorkerParams::try_from(log)` lives in
`enigma_tools_t`, outside the repository sources; decoding the worker
parameters from a log entry either succeeds or fails. -/
def decodeWorkerParamsFromLog (lg : Log) : Except EnclaveError WorkerParams :=
  match lg.decoded with
  | some p => .ok p
  | none => .error (.workerAuthError ("Failed to decode WorkerParams from the log"))

/-- Modelled from the spec: the chain-of-custody check the spec requires of
`verify_worker_params` — the supplied block header chain must chain back to
the trusted `preverified_block_hash` (the `BlockVerifier` collaborator is
outside the repository sources and its invocation is commented out in the
source).  A chain connects when its first header's parent hash is the
trusted hash. -/
def chainsBackToTrustedHash (headers : List BlockHeader) (trusted : Nat) : Bool :=
  match headers with
  | [] => false
  | h :: _ => h.parentHash == trusted

/-- Source `ecall_get_verified_worker_params_internal`, exactly as in the source:
rejects an empty header list, requires a stored epoch, *performs no chain
verification* (the `BlockVerifier` block is commented out in the source
under a TODO), reads the maximum nonce (`unwrap`), and decodes
`WorkerParams` from `receipt.logs[0]` — an unconditional index that panics
when the receipt has no logs. -/
def ecall_get_verified_worker_params_internal (m : EpochMap) (receipt : Receipt)
    (_receipt_hashes : List Nat) (block_headers : List BlockHeader) :
    RunResult EnclaveError WorkerParams :=
  match block_headers.get? 0 with
  | none => .fail (.workerAuthError ("The BlockHeaders parameter is empty."))
  | some _ =>
    match get_epoch m none with
    | .panicked => .panicked
    | .fail e => .fail e
    | .ok none => .fail (.workerAuthError ("No Epoch found in storage."))
    | .ok (some _epoch) =>
      match mapMaxKey m with
      | none => .panicked
      | some _nonce =>
        match receipt.logs.get? 0 with
        | none => .panicked
        | some lg =>
          match decodeWorkerParamsFromLog lg with
          | .error e => .fail e
          | .ok p => .ok p

/-- Modelled from the spec: `Epoch::set_worker_params` lives in
`enigma_tools_t`, outside the repository sources; it attaches the verified
worker parameters to the epoch ("mutated once to attach verified worker
parameters"), and the spec gives it no failure mode. -/
def set_worker_params (ep : Epoch) (p : WorkerParams) : Epoch :=
  { ep with worker_params := some p }

/-- Source `ecall_set_worker_params_internal`: the target nonce is the hardcoded
`Uint::from(1)` of the source; fails when the register has no entry at
that nonce, otherwise attaches the parameters in place. -/
def ecall_set_worker_params_internal (m : EpochMap) (params : WorkerParams) :
    RunResult EnclaveError Unit × EpochMap :=
  let nonce : Nat := 1
  match mapLookup m nonce with
  | none =>
    (.fail (.workerAuthError
      ("Cannot set the workers parameters without a nonce in the Epoch mutex.")), m)
  | some ep => (.ok (), (mapInsert m nonce (set_worker_params ep params)).2)

/-- Modelled from the spec: `Epoch::get_selected_workers` lives in
`enigma_tools_t`, outside the repository sources; the spec makes it a pure
deterministic function of `(seed, worker_params, address)` needing
committed worker parameters.  No claim in this development depends on the
selection rule itself, so the eligible subset is modelled as the
committed worker set. -/
def get_selected_workers (ep : Epoch) (_sc_addr : Nat) :
    Except EnclaveError (List Nat) :=
  match ep.worker_params with
  | none => .error (.workerAuthError ("No worker parameters in the epoch"))
  | some p => .ok p.payload

/-- Source `ecall_get_epoch_workers_internal`: looks up the epoch (forwarding the
caller's optional block number to `get_epoch`) and runs worker
selection. -/
def ecall_get_epoch_workers_internal (m : EpochMap) (sc_addr : Nat)
    (block_number : Option Nat) : RunResult EnclaveError (List Nat) :=
  match get_epoch m block_number with
  | .panicked => .panicked
  | .fail e => .fail e
  | .ok none =>
    .fail (.workerAuthError ("Cannot verify receipt without a nonce in the Epoch mutex."))
  | .ok (some ep) =>
    match get_selected_workers ep sc_addr with
    | .error e => .fail e
    | .ok ws => .ok ws

end EpochKeeper

namespace WasmU

/-- An SGX status code (`sgx_status_t`); only success versus a non-success
code matters at this boundary. -/
inductive SgxStatus where
  | success : SgxStatus
  | failure (code : Nat) : SgxStatus
deriving DecidableEq, Repr

/-- What one `ecall_deploy` boundary call produces: the status code the
call returns, the status written through `retval`, the bytes the enclave
wrote into the caller's output buffer, and the length it reported through
`output_len`. -/
structure EcallReply where
  status : SgxStatus
  retval : SgxStatus
  written : List Nat
  outputLen : Nat
deriving DecidableEq, Repr

/-- The external collaborators of `wasm.rs`: the `parity_wasm` /
`pwasm_utils` module-processing library and the enclave behind
`ecall_deploy`.  All are outside the repository sources and are passed in
as oracles; `buildModule` returns the processed module together with the
optional isolated constructor module, exactly the shape of
`pwasm_utils::build`. -/
structure WasmEnv where
  deserializeModule : List Nat → Except String (List Nat)
  buildModule : List Nat → Except String (List Nat × Option (List Nat))
  serializeModule : List Nat → Except String (List Nat)
  ecallDeploy : List Nat → EcallReply

/-- Source `MAX_EVM_RESULT` from the source: the fixed capacity of the output
buffer handed to the enclave. -/
def MAX_EVM_RESULT : Nat := 100000

/-- Source `build_constructor`: deserialize the raw module (`?` propagates the
error), run the build transformation (`panic!("")` on error), pick the
constructor module when present, serialize (`panic!("")` on error). -/
def build_constructor (env : WasmEnv) (wasm_code : List Nat) :
    RunResult String (List Nat) :=
  match env.deserializeModule wasm_code with
  | .error e => .fail e
  | .ok module0 =>
    match env.buildModule module0 with
    | .error _ => .panicked
    | .ok (module1, ctor_module) =>
      let chosen :=
        match ctor_module with
        | some c => c
        | none => module1
      match env.serializeModule chosen with
      | .error _ => .panicked
      | .ok v => .ok v

/-- Source `deploy`: build the deployment module, make the single `ecall_deploy`
boundary call into a zero-initialized buffer of `MAX_EVM_RESULT` bytes,
then return the first `output_len` bytes of the buffer as success.  The
status code returned by the call and the status written through `retval`
are bound in the source but never examined (the enclosing file carries
`allow(unused_assignments, unused_variables)`).  Reading
`slice[0..output_len]` panics when `output_len` exceeds the buffer
capacity. -/
def deploy (env : WasmEnv) (bytecode : List Nat) : RunResult String (List Nat) :=
  match build_constructor env bytecode with
  | .panicked => .panicked
  | .fail e => .fail e
  | .ok deploy_bytecode =>
    let reply := env.ecallDeploy deploy_bytecode
    let buffer := (reply.written ++ List.replicate MAX_EVM_RESULT 0).take MAX_EVM_RESULT
    if reply.outputLen ≤ MAX_EVM_RESULT then .ok (buffer.take reply.outputLen)
    else .panicked

/-- The sequence of inputs `deploy` passes across the enclave boundary,
read off the straight-line source: one call when the build step succeeds,
none otherwise. -/
def deployEcallInputs (env : WasmEnv) (bytecode : List Nat) : List (List Nat) :=
  match build_constructor env bytecode with
  | .ok deploy_bytecode => [deploy_bytecode]
  | _ => []

/-- A module-processing pipeline whose steps all succeed unchanged, over
an enclave whose boundary call reports a non-success status and a
non-success `retval` while writing one output byte. -/
def wasmEnvFail : WasmEnv where
  deserializeModule := fun m => .ok m
  buildModule := fun m => .ok (m, none)
  serializeModule := fun m => .ok m
  ecallDeploy := fun _ =>
    { status := .failure 1, retval := .failure 1, written := [7], outputLen := 1 }

/-- The same pipeline as `wasmEnvFail` over an enclave reporting
success. -/
def wasmEnvOk : WasmEnv where
  deserializeModule := fun m => .ok m
  buildModule := fun m => .ok (m, none)
  serializeModule := fun m => .ok m
  ecallDeploy := fun _ =>
    { status := .success, retval := .success, written := [7], outputLen := 1 }

end WasmU

namespace IpcCore

/-- Value of one hex digit, case-insensitive, as in the `hex` crate. -/
def hexDigitVal (c : Char) : Option Nat :=
  if 48 ≤ c.toNat ∧ c.toNat ≤ 57 then some (c.toNat - 48)
  else if 97 ≤ c.toNat ∧ c.toNat ≤ 102 then some (c.toNat - 87)
  else if 65 ≤ c.toNat ∧ c.toNat ≤ 70 then some (c.toNat - 55)
  else none

/-- Hex decoding of a character list: pairs of hex digits; fails on an odd
length or a non-hex character, as `FromHex::from_hex` does. -/
def hexPairsToBytes : List Char → Option (List Nat)
  | [] => some []
  | [_] => none
  | c1 :: c2 :: rest => do
    let h ← hexDigitVal c1
    let l ← hexDigitVal c2
    let tail ← hexPairsToBytes rest
    some ((h * 16 + l) :: tail)

/-- Source `from_hex` of the `hex` crate on a string. -/
def from_hex (s : String) : Option (List Nat) := hexPairsToBytes s.data

/-- Errors a request handler can return (`failure::Error` in the source,
here collapsed to the variants the modelled handlers construct): the
`P2PErr { cmd, msg }` of the source, a store lookup miss, a hex-decoding
failure, a malformed delta record, and errors coming back from an external
collaborator. -/
inductive HandlerError where
  | p2p (cmd : String) (msg : String) : HandlerError
  | notFound : HandlerError
  | hexError : HandlerError
  | keyMismatch : HandlerError
  | external (s : String) : HandlerError
deriving DecidableEq, Repr

/-- Modelled from the spec: `from_hex_32` lives in `enigma_tools_u`,
outside the repository sources; addresses are fixed-size 32-byte
identifiers sent hex-encoded, so the decode succeeds exactly on hex
strings denoting 32 bytes. -/
def from_hex_32 (s : String) : Except HandlerError (List Nat) :=
  match from_hex s with
  | some bs => if bs.length = 32 then .ok bs else .error .hexError
  | none => .error .hexError

/-- Source `from_hex` used through `?` (error instead of panic). -/
def from_hex_e (s : String) : Except HandlerError (List Nat) :=
  match from_hex s with
  | some bs => .ok bs
  | none => .error .hexError

/-- Lower-case hex digit of a nibble. -/
def hexDigitChar (n : Nat) : Char :=
  if n < 10 then Char.ofNat (48 + n) else Char.ofNat (87 + n)

/-- Source `to_hex`: lower-case hex encoding of a byte sequence. -/
def to_hex (bs : List Nat) : String :=
  String.mk (bs.foldr
    (fun b acc => hexDigitChar (b / 16 % 16) :: hexDigitChar (b % 16) :: acc) [])

/-- Source `Stype`: the slot kind of a store key — bytecode or a delta at an
index. -/
inductive Stype where
  | bytecode : Stype
  | delta (n : Nat) : Stype
deriving DecidableEq, Repr

/-- Source `DeltaKey`: a store key, the pair of a 32-byte address and a slot
kind. -/
structure DeltaKey where
  hash : List Nat
  key_type : Stype
deriving DecidableEq, Repr

/-- The Delta Store contents: an association list from key to bytes.  The
store engine itself (the `db` module) is outside the repository sources;
all operations on it below are modelled from the spec (§4.1). -/
abbrev DB := List (DeltaKey × List Nat)

namespace P2PCalls

/-- Raw keyed lookup in the store. -/
def dbGet : DB → DeltaKey → Option (List Nat)
  | [], _ => none
  | (k, v) :: rest, n => if k = n then some v else dbGet rest n

/-- The delta indices stored for an address. -/
def deltaIndicesFor (db : DB) (addr : List Nat) : List Nat :=
  db.filterMap (fun p =>
    if p.1.hash = addr then
      match p.1.key_type with
      | .delta i => some i
      | .bytecode => none
    else none)

/-- Maximum of a list of naturals, `none` on the empty list. -/
def maxNat : List Nat → Option Nat
  | [] => none
  | n :: rest =>
    match maxNat rest with
    | none => some n
    | some m => some (max n m)

/-- Modelled from the spec: `get_tip(address)` returns the delta with the
maximum stored index for the address and fails with `NotFound` when the
address has no stored delta. -/
def get_tip (db : DB) (addr : List Nat) : Except HandlerError (DeltaKey × List Nat) :=
  match maxNat (deltaIndicesFor db addr) with
  | none => .error .notFound
  | some i =>
    match dbGet db ⟨addr, .delta i⟩ with
    | some d => .ok (⟨addr, .delta i⟩, d)
    | none => .error .notFound

/-- Modelled from the spec: `get_delta(key)` fails with `NotFound` on a
missing key. -/
def get_delta (db : DB) (k : DeltaKey) : Except HandlerError (List Nat) :=
  match dbGet db k with
  | some d => .ok d
  | none => .error .notFound

/-- Modelled from the spec: `get_deltas(from, to)` returns the deltas of
the address in the half-open index range in increasing index order, and an
explicit `none` (not an error) when no delta of the address lies in the
range. -/
def get_deltas (db : DB) (fromK toK : DeltaKey) :
    Except HandlerError (Option (List (DeltaKey × List Nat))) :=
  match fromK.key_type, toK.key_type with
  | .delta a, .delta b =>
    let found := (List.range' a (b - a)).filterMap
      (fun i => (dbGet db ⟨fromK.hash, .delta i⟩).map
        (fun d => ((⟨fromK.hash, .delta i⟩ : DeltaKey), d)))
    .ok (if found.isEmpty then none else some found)
  | _, _ => .error .keyMismatch

/-- Modelled from the spec: the set of known addresses. -/
def get_all_addresses (db : DB) : List (List Nat) :=
  (db.map (fun p => p.1.hash)).dedup

/-- Modelled from the spec: one tip record per known address; absence of
data yields the empty sequence. -/
def get_all_tips (db : DB) : List (DeltaKey × List Nat) :=
  (get_all_addresses db).filterMap (fun a =>
    match get_tip db a with
    | .ok t => some t
    | .error _ => none)

/-- Modelled from the spec: `get_contract` returns the bytecode record,
and absence yields an empty result rather than an error. -/
def get_contract (db : DB) (addr : List Nat) : Except HandlerError (List Nat) :=
  .ok (match dbGet db ⟨addr, .bytecode⟩ with
    | some d => d
    | none => [])

/-- Modelled from the spec: `insert_tuples` applies each tuple
independently, returning the position-aligned per-item result sequence; a
duplicate insert is reported as that item's error without blocking
sibling inserts, and stored entries are never overwritten by it. -/
def insert_tuples (db : DB) : List (DeltaKey × List Nat) → DB × List (Except HandlerError Unit)
  | [] => (db, [])
  | (k, d) :: rest =>
    match dbGet db k with
    | some _ =>
      ((insert_tuples db rest).1,
       .error (.external ("duplicate insert")) :: (insert_tuples db rest).2)
    | none =>
      ((insert_tuples (db ++ [(k, d)]) rest).1,
       .ok () :: (insert_tuples (db ++ [(k, d)]) rest).2)

/-- Modelled from the spec: `force_update` overwrites unconditionally. -/
def force_update (db : DB) (k : DeltaKey) (v : List Nat) : DB :=
  (k, v) :: db.filter (fun p => p.1 != k)

end P2PCalls

/-- The wire form of a delta record (`IpcDelta` of the `messages` module,
which is outside the repository sources; modelled from the spec's wire
table, §6): optional hex address, slot index, optional hex delta bytes. -/
structure IpcDelta where
  address : Option String
  key : Nat
  delta : Option String
deriving DecidableEq, Repr

/-- Source `IpcDelta::default()`. -/
def IpcDelta.default : IpcDelta := ⟨none, 0, none⟩

/-- One `GetDeltas` range request item. -/
structure IpcGetDeltas where
  address : String
  fromIndex : Nat
  toIndex : Nat
deriving DecidableEq, Repr

/-- A task descriptor for deploy/compute requests. -/
structure IpcTask where
  pre_code : Option String
  address : String
  encrypted_args : String
  encrypted_fn : String
  user_pubkey : String
  gas_limit : Nat
deriving DecidableEq, Repr

/-- One per-item entry of an `UpdateDeltas` response. -/
structure IpcDeltaResult where
  address : String
  key : Nat
  status : Nat
deriving DecidableEq, Repr

/-- Result payloads of responses (modelled from the spec's wire table,
§6). -/
inductive IpcResults where
  | registrationParams (sigining_key : String) (report : String) (signature : String)
  | tips (ts : List IpcDelta)
  | addresses (as : List String)
  | delta (d : String)
  | deltas (ds : List IpcDelta)
  | bytecode (b : String)
  | status (s : Nat)
  | updateDeltasResult (status : Nat) (errors : List IpcDeltaResult)
  | dhKey (dh_key : String) (sig : String)
  | request (request : String) (sig : String)
  | taskResult (exe_code : Option String) (pre_code_hash : Option String)
      (used_gas : Nat) (output : Option String) (delta : IpcDelta) (signature : String)
deriving DecidableEq, Repr

/-- Response messages, echoing the request id. -/
inductive IpcResponse where
  | getRegistrationParams (id : String) (result : IpcResults)
  | getTip (id : String) (result : IpcDelta)
  | getTips (id : String) (result : IpcResults)
  | getAllTips (id : String) (result : IpcResults)
  | getAllAddrs (id : String) (result : IpcResults)
  | getDelta (id : String) (result : IpcResults)
  | getDeltas (id : String) (result : IpcResults)
  | getContract (id : String) (result : IpcResults)
  | updateNewContract (id : String) (address : String) (result : IpcResults)
  | updateDeltas (id : String) (result : IpcResults)
  | newTaskEncryptionKey (id : String) (result : IpcResults)
  | deploySecretContract (id : String) (result : IpcResults)
  | computeTask (id : String) (result : IpcResults)
  | getPTTRequest (id : String) (result : IpcResults)
deriving DecidableEq, Repr

/-- A transport message: either the empty default message
(`zmq::Message::default()`) or an encoded response. -/
inductive Message where
  | empty : Message
  | response (r : IpcResponse) : Message
deriving DecidableEq, Repr

/-- Request messages, one variant per recognized operation. -/
inductive IpcRequest where
  | getRegistrationParams (id : String)
  | identityChallenge (id : String) (nonce : String)
  | getTip (id : String) (input : String)
  | getTips (id : String) (input : List String)
  | getAllTips (id : String)
  | getAllAddrs (id : String)
  | getDelta (id : String) (input : IpcDelta)
  | getDeltas (id : String) (input : List IpcGetDeltas)
  | getContract (id : String) (input : String)
  | updateNewContract (id : String) (address : String) (bytecode : String)
  | updateDeltas (id : String) (deltas : List IpcDelta)
  | newTaskEncryptionKey (id : String) (user_pubkey : String)
  | deploySecretContract (id : String) (input : IpcTask)
  | computeTask (id : String) (input : IpcTask)
  | getPTTRequest (id : String) (addresses : List String)
deriving DecidableEq, Repr

/-- The attestation service's report response (external collaborator):
report body string, its signature, and the quote's report data. -/
structure AttestationResponse where
  report_string : String
  signature : String
  quote_report_data : List Nat
deriving DecidableEq, Repr

/-- Result of a deploy/compute enclave call as the handlers consume it. -/
structure WasmTaskResult where
  output : List Nat
  used_gas : Nat
  delta : IpcDelta
  signature : List Nat
deriving DecidableEq, Repr

/-- The external collaborators the handlers call (all outside the
repository sources): registration/attestation, key exchange, principal
requests, the enclave deploy/compute boundary, and the keccak hash.  Each
field mirrors one fallible call of `ipc_listener.rs`. -/
structure Env where
  get_register_signing_address : Except HandlerError String
  retry_quote : Except HandlerError (List Nat)
  get_report : List Nat → Except HandlerError AttestationResponse
  get_quote : AttestationResponse → Except HandlerError (List Nat)
  utf8_decode : List Nat → Except HandlerError String
  get_user_key : List Nat → Except HandlerError (List Nat × List Nat)
  deserialize_value : List Nat → Option (List Nat)
  pubkey_from_value : List Nat → Except HandlerError (List Nat)
  ptt_req : List (List Nat) → Except HandlerError (List Nat × List Nat)
  wasm_deploy : List Nat → List Nat → List Nat → List Nat → List Nat → Nat →
    Except HandlerError WasmTaskResult
  wasm_execute : List Nat → List Nat → List Nat → List Nat → List Nat → Nat →
    Except HandlerError WasmTaskResult
  keccak256 : List Nat → List Nat

/-- Outcome of one handler invocation: a panic, or completion with the
store state after the handler and the handler's `Result`. -/
inductive HStep where
  | panicked : HStep
  | done (db : DB) (res : Except HandlerError Message) : HStep

/-- Modelled from the spec: `IpcDelta::from_delta_key` lives in the
`messages` module, outside the repository sources; per the wire table it
hex-encodes the address and delta bytes of a delta record, and only a
delta key can form one. -/
def from_delta_key (k : DeltaKey) (data : List Nat) : Except HandlerError IpcDelta :=
  match k.key_type with
  | .delta i => .ok ⟨some (to_hex k.hash), i, some (to_hex data)⟩
  | .bytecode => .error .keyMismatch

/-- The UTF-8 bytes of an ASCII report string (`as_bytes`). -/
def stringBytes (s : String) : List Nat := s.data.map Char.toNat

/-- Source `trim_right_matches('\x00')` of the source assert. -/
def trimTrailingNulls (s : String) : String :=
  String.mk ((s.data.reverse.dropWhile (fun c => c == Char.ofNat 0)).reverse)

namespace handling

/-- Source `get_registration_params`: signing address, bounded-retry quote,
attestation report, quote extraction, UTF-8 decode (each `?`), then the
source's `assert_eq!` of report data against the signing key — a panic on
mismatch. -/
def get_registration_params (env : Env) (id : String) (db : DB) : HStep :=
  match env.get_register_signing_address with
  | .error e => .done db (.error e)
  | .ok sigining_key =>
    match env.retry_quote with
    | .error e => .done db (.error e)
    | .ok enc_quote =>
      match env.get_report enc_quote with
      | .error e => .done db (.error e)
      | .ok response =>
        match env.get_quote response with
        | .error e => .done db (.error e)
        | .ok report_data =>
          match env.utf8_decode report_data with
          | .error e => .done db (.error e)
          | .ok s =>
            if trimTrailingNulls s = sigining_key then
              .done db (.ok (.response (.getRegistrationParams id
                (.registrationParams sigining_key
                  (to_hex (stringBytes response.report_string)) response.signature))))
            else .panicked

/-- Source `identity_challange`: `unimplemented!`, a panic on every input. -/
def identity_challange (_id : String) (_nonce : String) (_db : DB) : HStep :=
  .panicked

/-- Source `get_tip`: decode the address, query the tip, `unwrap_delta` the key
(a panic on a bytecode key), hex-encode the delta. -/
def get_tip (id : String) (input : String) (db : DB) : HStep :=
  match from_hex_32 input with
  | .error e => .done db (.error e)
  | .ok address =>
    match P2PCalls.get_tip db address with
    | .error e => .done db (.error e)
    | .ok (tip_key, tip_data) =>
      match tip_key.key_type with
      | .delta key =>
        .done db (.ok (.response (.getTip id ⟨none, key, some (to_hex tip_data)⟩)))
      | .bytecode => .panicked

/-- The per-address loop of `get_tips`; every step uses `?`. -/
def get_tips_loop (db : DB) : List String → Except HandlerError (List IpcDelta)
  | [] => .ok []
  | a :: rest => do
    let address ← from_hex_32 a
    let t ← P2PCalls.get_tip db address
    let d ← from_delta_key t.1 t.2
    let restR ← get_tips_loop db rest
    .ok (d :: restR)

/-- Source `get_tips`. -/
def get_tips (id : String) (input : List String) (db : DB) : HStep :=
  match get_tips_loop db input with
  | .error e => .done db (.error e)
  | .ok ts => .done db (.ok (.response (.getTips id (.tips ts))))

/-- The conversion loop shared by `get_all_tips`. -/
def tips_to_ipc : List (DeltaKey × List Nat) → Except HandlerError (List IpcDelta)
  | [] => .ok []
  | t :: rest => do
    let d ← from_delta_key t.1 t.2
    let restR ← tips_to_ipc rest
    .ok (d :: restR)

/-- Source `get_all_tips`. -/
def get_all_tips (id : String) (db : DB) : HStep :=
  match tips_to_ipc (P2PCalls.get_all_tips db) with
  | .error e => .done db (.error e)
  | .ok ts => .done db (.ok (.response (.getAllTips id (.tips ts))))

/-- Source `get_all_addrs`. -/
def get_all_addrs (id : String) (db : DB) : HStep :=
  .done db (.ok (.response (.getAllAddrs id
    (.addresses ((P2PCalls.get_all_addresses db).map to_hex)))))

/-- Source `get_delta`: the address field is required (`ok_or` a `P2PErr`), then
decoded; the store lookup uses `?`. -/
def get_delta (id : String) (input : IpcDelta) (db : DB) : HStep :=
  match input.address with
  | none => .done db (.error (.p2p ("GetDelta") ("Address Missing")))
  | some a =>
    match from_hex_32 a with
    | .error e => .done db (.error e)
    | .ok address =>
      match P2PCalls.get_delta db ⟨address, .delta input.key⟩ with
      | .error e => .done db (.error e)
      | .ok d => .done db (.ok (.response (.getDelta id (.delta (to_hex d)))))

/-- The per-range loop of `get_deltas`: a range with no data pushes one
default record and continues; otherwise each found delta is converted and
the records are flattened. -/
def get_deltas_loop (db : DB) : List IpcGetDeltas → Except HandlerError (List IpcDelta)
  | [] => .ok []
  | g :: rest => do
    let address ← from_hex_32 g.address
    let dbRes ← P2PCalls.get_deltas db ⟨address, .delta g.fromIndex⟩ ⟨address, .delta g.toIndex⟩
    match dbRes with
    | none => do
      let restR ← get_deltas_loop db rest
      .ok (IpcDelta.default :: restR)
    | some items => do
      let ds ← tips_to_ipc items
      let restR ← get_deltas_loop db rest
      .ok (ds ++ restR)

/-- Source `get_deltas`. -/
def get_deltas (id : String) (input : List IpcGetDeltas) (db : DB) : HStep :=
  match get_deltas_loop db input with
  | .error e => .done db (.error e)
  | .ok ds => .done db (.ok (.response (.getDeltas id (.deltas ds))))

/-- Source `get_contract`: absence of bytecode yields the empty result. -/
def get_contract (id : String) (input : String) (db : DB) : HStep :=
  match from_hex_32 input with
  | .error e => .done db (.error e)
  | .ok address =>
    match P2PCalls.get_contract db address with
    | .error _ => .done db (.ok (.response (.getContract id (.bytecode (to_hex [])))))
    | .ok data => .done db (.ok (.response (.getContract id (.bytecode (to_hex data)))))

/-- Source `update_new_contract`: the force-update registration path. -/
def update_new_contract (id : String) (address : String) (bytecode : String)
    (db : DB) : HStep :=
  match from_hex_32 address with
  | .error e => .done db (.error e)
  | .ok address_arr =>
    match from_hex_e bytecode with
    | .error e => .done db (.error e)
    | .ok code =>
      .done (P2PCalls.force_update db ⟨address_arr, .bytecode⟩ code)
        (.ok (.response (.updateNewContract id address (.status 0))))

/-- The first loop of `update_deltas`: converts every wire tuple before
anything is inserted; each missing field or hex failure propagates with
`?`, aborting the whole request. -/
def decode_update_deltas : List IpcDelta → Except HandlerError (List (DeltaKey × List Nat))
  | [] => .ok []
  | d :: rest =>
    match d.address with
    | none => .error (.p2p ("UpdateDeltas") ("Address Missing"))
    | some a =>
      match from_hex_32 a with
      | .error e => .error e
      | .ok address =>
        match d.delta with
        | none => .error (.p2p ("UpdateDeltas") ("Delta Data Missing"))
        | some s =>
          match from_hex_e s with
          | .error e => .error e
          | .ok data =>
            match decode_update_deltas rest with
            | .error e => .error e
            | .ok restR => .ok ((⟨address, .delta d.key⟩, data) :: restR)

/-- The second loop of `update_deltas`: zips the tuples with the per-item
insert results, `unwrap_delta`-ing each key (a panic on a bytecode key)
and reporting status 0 on success, 1 on failure. -/
def update_deltas_results :
    List (DeltaKey × List Nat) → List (Except HandlerError Unit) →
      Option (List IpcDeltaResult)
  | [], _ => some []
  | _ :: _, [] => some []
  | (k, _) :: rest, r :: rs =>
    match k.key_type with
    | .bytecode => none
    | .delta i =>
      match update_deltas_results rest rs with
      | none => none
      | some restR =>
        some (⟨to_hex k.hash, i,
          match r with
          | .ok _ => 0
          | .error _ => 1⟩ :: restR)

/-- Source `update_deltas`: decode all tuples (aborting the request on the first
malformed one), insert them as one batch, and report the position-aligned
per-item statuses with overall status 0. -/
def update_deltas (id : String) (deltas : List IpcDelta) (db : DB) : HStep :=
  match decode_update_deltas deltas with
  | .error e => .done db (.error e)
  | .ok tuples =>
    match update_deltas_results tuples (P2PCalls.insert_tuples db tuples).2 with
    | none => .panicked
    | some errors =>
      .done (P2PCalls.insert_tuples db tuples).1
        (.ok (.response (.updateDeltas id (.updateDeltasResult 0 errors))))

/-- Source `get_dh_user_key`: `from_hex(..).unwrap()` (a panic on bad hex), then
`clone_from_slice` into a 64-byte array (a panic on any other length),
then the enclave key-exchange call, the msgpack `unwrap` (a panic), and
the pubkey extraction (`?`). -/
def get_dh_user_key (env : Env) (id : String) (user_pubkey : String) (db : DB) : HStep :=
  match from_hex user_pubkey with
  | none => .panicked
  | some bs =>
    if bs.length = 64 then
      match env.get_user_key bs with
      | .error e => .done db (.error e)
      | .ok (msg, sig) =>
        match env.deserialize_value msg with
        | none => .panicked
        | some v =>
          match env.pubkey_from_value v with
          | .error e => .done db (.error e)
          | .ok pubkey =>
            .done db (.ok (.response (.newTaskEncryptionKey id
              (.dhKey (to_hex pubkey) (to_hex sig)))))
    else .panicked

/-- The address loop of `get_ptt_req`. -/
def hex32_list : List String → Except HandlerError (List (List Nat))
  | [] => .ok []
  | a :: rest => do
    let x ← from_hex_32 a
    let xs ← hex32_list rest
    .ok (x :: xs)

/-- Source `get_ptt_req`. -/
def get_ptt_req (env : Env) (id : String) (addresses : List String) (db : DB) : HStep :=
  match hex32_list addresses with
  | .error e => .done db (.error e)
  | .ok addresses_arr =>
    match env.ptt_req addresses_arr with
    | .error e => .done db (.error e)
    | .ok (data, sig) =>
      .done db (.ok (.response (.getPTTRequest id
        (.request (to_hex data) (to_hex sig)))))

/-- Source `deploy_contract`: `pre_code.expect(..)` (a panic when absent), hex
decodes with `?`, `clone_from_slice` of the user pubkey (a panic unless 64
bytes), then the enclave deploy call; the response carries `exe_code`, the
keccak hash of the submitted bytecode, and no `output`. -/
def deploy_contract (env : Env) (id : String) (input : IpcTask) (db : DB) : HStep :=
  match input.pre_code with
  | none => .panicked
  | some pre =>
    match from_hex_e pre with
    | .error e => .done db (.error e)
    | .ok bytecode =>
      match from_hex_32 input.address with
      | .error e => .done db (.error e)
      | .ok contract_address =>
        match from_hex_e input.encrypted_args with
        | .error e => .done db (.error e)
        | .ok enc_args =>
          match from_hex_e input.encrypted_fn with
          | .error e => .done db (.error e)
          | .ok constructor =>
            match from_hex_e input.user_pubkey with
            | .error e => .done db (.error e)
            | .ok pk =>
              if pk.length = 64 then
                match env.wasm_deploy bytecode constructor enc_args contract_address
                    pk input.gas_limit with
                | .error e => .done db (.error e)
                | .ok result =>
                  .done db (.ok (.response (.deploySecretContract id
                    (.taskResult (some (to_hex result.output))
                      (some (to_hex (env.keccak256 bytecode))) result.used_gas none
                      result.delta (to_hex result.signature)))))
              else .panicked

/-- Source `compute_task`: hex decodes with `?`, `clone_from_slice` of the user
pubkey (a panic unless 64 bytes), bytecode lookup, then the enclave
compute call; the response carries `output` and no `exe_code`. -/
def compute_task (env : Env) (id : String) (input : IpcTask) (db : DB) : HStep :=
  match from_hex_e input.encrypted_args with
  | .error e => .done db (.error e)
  | .ok enc_args =>
    match from_hex_32 input.address with
    | .error e => .done db (.error e)
    | .ok address =>
      match from_hex_e input.encrypted_fn with
      | .error e => .done db (.error e)
      | .ok callable =>
        match from_hex_e input.user_pubkey with
        | .error e => .done db (.error e)
        | .ok pk =>
          if pk.length = 64 then
            match P2PCalls.get_contract db address with
            | .error e => .done db (.error e)
            | .ok bytecode =>
              match env.wasm_execute bytecode callable enc_args pk address
                  input.gas_limit with
              | .error e => .done db (.error e)
              | .ok result =>
                .done db (.ok (.response (.computeTask id
                  (.taskResult none none result.used_gas
                    (some (to_hex result.output)) result.delta
                    (to_hex result.signature)))))
          else .panicked

end handling

/-- The routing match of `handle_message`: one handler per request
variant. -/
def dispatch (env : Env) (db : DB) : IpcRequest → HStep
  | .getRegistrationParams id => handling.get_registration_params env id db
  | .identityChallenge id nonce => handling.identity_challange id nonce db
  | .getTip id input => handling.get_tip id input db
  | .getTips id input => handling.get_tips id input db
  | .getAllTips id => handling.get_all_tips id db
  | .getAllAddrs id => handling.get_all_addrs id db
  | .getDelta id input => handling.get_delta id input db
  | .getDeltas id input => handling.get_deltas id input db
  | .getContract id input => handling.get_contract id input db
  | .updateNewContract id address bytecode =>
    handling.update_new_contract id address bytecode db
  | .updateDeltas id deltas => handling.update_deltas id deltas db
  | .newTaskEncryptionKey id user_pubkey =>
    handling.get_dh_user_key env id user_pubkey db
  | .deploySecretContract id input => handling.deploy_contract env id input db
  | .computeTask id input => handling.compute_task env id input db
  | .getPTTRequest id addresses => handling.get_ptt_req env id addresses db

/-- Source `response_msg.unwrap_or_default()`. -/
def unwrap_or_default : Except HandlerError Message → Message
  | .ok m => m
  | .error _ => .empty

/-- Source `handle_message`: processes the batch in order, pushing each handler's
result (or the default message on a handler error); a handler panic
aborts the whole batch (`none`).  The store state is threaded through the
batch as the shared `DATABASE` is in the source. -/
def handle_message (env : Env) (db : DB) : List IpcRequest → Option (DB × List Message)
  | [] => some (db, [])
  | r :: rest =>
    match dispatch env db r with
    | .panicked => none
    | .done db2 res =>
      match handle_message env db2 rest with
      | none => none
      | some (db3, ms) => some (db3, unwrap_or_default res :: ms)

/-- The per-item status an `UpdateDeltas` response reports: 0 on success,
1 on failure (the `if res.is_err()` of the source). -/
def status_of : Except HandlerError Unit → Nat
  | .ok _ => 0
  | .error _ => 1

/-- An environment whose external collaborators all report failure (and
whose msgpack decoder rejects everything): enough to exercise the purely
local handlers. -/
def envW : Env where
  get_register_signing_address := .error .notFound
  retry_quote := .error .notFound
  get_report := fun _ => .error .notFound
  get_quote := fun _ => .error .notFound
  utf8_decode := fun _ => .error .notFound
  get_user_key := fun _ => .error .notFound
  deserialize_value := fun _ => none
  pubkey_from_value := fun _ => .error .notFound
  ptt_req := fun _ => .error .notFound
  wasm_deploy := fun _ _ _ _ _ _ => .error .notFound
  wasm_execute := fun _ _ _ _ _ _ => .error .notFound
  keccak256 := fun x => x

/-- A 64-character hex string: a well-formed wire address. -/
def addr64 : String := String.mk (List.replicate 64 'a')

/-- A well-formed wire delta tuple. -/
def goodDelta : IpcDelta := ⟨some addr64, 0, some ("ff")⟩

/-- A malformed wire delta tuple: its delta-bytes field is missing. -/
def badDelta : IpcDelta := ⟨some addr64, 1, none⟩

end IpcCore

namespace EpochKeeper

/-- The maximum key of a register is a key of the register, so the source's
`guard.get(&nonce).unwrap()` after `keys().max()` cannot actually panic. -/
theorem mapLookup_of_mapMaxKey :
    ∀ (m : EpochMap) (k : Nat), mapMaxKey m = some k → ∃ e, mapLookup m k = some e := by
  intro m
  induction m with
  | nil => intro k h; simp [mapMaxKey] at h
  | cons p rest ih =>
    intro k h
    obtain ⟨k1, v1⟩ := p
    cases hrest : mapMaxKey rest with
    | none =>
      rw [mapMaxKey, hrest] at h
      cases h
      exact ⟨v1, by simp [mapLookup]⟩
    | some k2 =>
      rw [mapMaxKey, hrest] at h
      cases h
      by_cases hk : k1 = max k1 k2
      · exact ⟨v1, by simp [mapLookup, ← hk]⟩
      · have hmax : max k1 k2 = k2 := by
          rcases max_choice k1 k2 with h | h
          · exact absurd h.symm hk
          · exact h
        obtain ⟨e, he⟩ := ih k2 hrest
        refine ⟨e, ?_⟩
        rw [mapLookup, if_neg hk, hmax]
        exact he

/-- A non-empty register always has a maximum key. -/
theorem mapMaxKey_isSome_of_ne_nil :
    ∀ (m : EpochMap), m ≠ [] → ∃ k, mapMaxKey m = some k := by
  intro m h
  cases m with
  | nil => exact absurd rfl h
  | cons p rest =>
    cases hrest : mapMaxKey rest with
    | none => exact ⟨p.1, by rw [mapMaxKey, hrest]⟩
    | some k2 => exact ⟨max p.1 k2, by rw [mapMaxKey, hrest]⟩

/-- On a non-empty register, `get_epoch` with no block number returns the
entry at the maximum nonce. -/
theorem get_epoch_some_of_ne_nil (m : EpochMap) (h : m ≠ []) :
    ∃ k e, mapMaxKey m = some k ∧ mapLookup m k = some e ∧
      get_epoch m none = .ok (some e) := by
  obtain ⟨k, hk⟩ := mapMaxKey_isSome_of_ne_nil m h
  obtain ⟨e, he⟩ := mapLookup_of_mapMaxKey m k hk
  refine ⟨k, e, hk, he, ?_⟩
  rw [get_epoch]
  have hne : m.isEmpty = false := by
    cases m with
    | nil => exact absurd rfl h
    | cons p rest => rfl
  rw [hne]
  simp only [Bool.false_eq_true, if_false, hk, he]

/-- A fresh binding is found by `mapLookup`. -/
theorem mapLookup_insert_self (m : EpochMap) (k : Nat) (v : Epoch) :
    mapLookup (mapInsert m k v).2 k = some v := by
  simp [mapInsert, mapLookup]

/-- C8: every epoch lookup that supplies an explicit block number — in
particular every worker-selection call with a block number — fails with
the `WorkerAuthError` "not implemented" (the spec's `RegistrationError`),
for every register state; it never falls back to the current
(maximum-nonce) epoch. -/
theorem epoch_lookup_by_block_number_fails :
    ∀ (m : EpochMap) (sc_addr : Nat) (bn : Nat),
      get_epoch m (some bn) =
        .fail (.workerAuthError ("Epoch lookup by block number not implemented.")) ∧
      ecall_get_epoch_workers_internal m sc_addr (some bn) =
        .fail (.workerAuthError ("Epoch lookup by block number not implemented.")) := by
  intro m sc_addr bn
  exact ⟨rfl, rfl⟩

/-- C7: `ecall_set_worker_params_internal` targets the hardcoded nonce 1;
it fails with the `WorkerAuthError` (the spec's `RegistrationError`) if
and only if the register has no entry at nonce 1, and otherwise attaches
the worker parameters to that entry and succeeds. -/
theorem set_worker_params_at_hardcoded_nonce :
    ∀ (m : EpochMap) (p : WorkerParams),
      ((∃ e, (ecall_set_worker_params_internal m p).1 = .fail e) ↔
        mapLookup m 1 = none) ∧
      (∀ ep, mapLookup m 1 = some ep →
        ecall_set_worker_params_internal m p =
          (.ok (), (mapInsert m 1 (set_worker_params ep p)).2) ∧
        mapLookup (ecall_set_worker_params_internal m p).2 1 =
          some { ep with worker_params := some p }) := by
  intro m p
  constructor
  · constructor
    · intro ⟨e, he⟩
      cases h : mapLookup m 1 with
      | none => rfl
      | some ep =>
        rw [ecall_set_worker_params_internal] at he
        simp only [h] at he
        cases he
    · intro h
      rw [ecall_set_worker_params_internal]
      simp only [h]
      exact ⟨_, rfl⟩
  · intro ep h
    constructor
    · rw [ecall_set_worker_params_internal]
      simp only [h]
    · rw [ecall_set_worker_params_internal]
      simp only [h]
      exact mapLookup_insert_self m 1 (set_worker_params ep p)

/-- Witness for C7 at a concrete register with an entry at nonce 1. -/
theorem set_worker_params_at_hardcoded_nonce_witness :
    mapLookup [(1, Epoch.mk 3 none 0)] 1 = some (Epoch.mk 3 none 0) ∧
    mapLookup (ecall_set_worker_params_internal [(1, Epoch.mk 3 none 0)] ⟨[9]⟩).2 1 =
      some (Epoch.mk 3 (some ⟨[9]⟩) 0) :=
  ⟨rfl, ((set_worker_params_at_hardcoded_nonce [(1, Epoch.mk 3 none 0)] ⟨[9]⟩).2
    (Epoch.mk 3 none 0) rfl).2⟩

/-- C4 names the contract of `generate_epoch_seed`: fail exactly when the
new entry cannot be persisted, return the new nonce when it is.  The code
violates it: `HashMap::insert` returns `None` precisely when the key is
fresh and the entry was stored, yet the source treats `None` as the
failure case — so the call below persists the epoch at nonce 0 (and, on
the second call, at `previous_max_nonce + 1`) and still returns the
`WorkerAuthError` "Unable to store new Epoch" both times. -/
theorem generate_epoch_seed_errs_though_persisted :
    ecall_generate_epoch_seed_internal [] 42 =
      (.fail (.workerAuthError ("Unable to store new Epoch")),
       [(0, Epoch.mk 42 none PREVERIFIED_BLOCK_HASH)]) ∧
    ecall_generate_epoch_seed_internal [(0, Epoch.mk 42 none PREVERIFIED_BLOCK_HASH)] 7 =
      (.fail (.workerAuthError ("Unable to store new Epoch")),
       [(1, Epoch.mk 7 none PREVERIFIED_BLOCK_HASH),
        (0, Epoch.mk 42 none PREVERIFIED_BLOCK_HASH)]) :=
  ⟨rfl, rfl⟩

/-- C5: after two consecutive `generate_epoch_seed` calls starting from
the empty register, the register holds exactly two entries with strictly
increasing nonces 0 and 1, and the second entry's
`preverified_block_hash` equals the first entry's, unchanged.  This holds
unconditionally on the register state (the calls' return values are
affected by the inverted insert check recorded at C4, but both entries
persist). -/
theorem epoch_register_after_two_generations :
    ∀ (s1 s2 : Nat),
      ∃ e0 e1 : Epoch,
        (ecall_generate_epoch_seed_internal
          (ecall_generate_epoch_seed_internal [] s1).2 s2).2 = [(1, e1), (0, e0)] ∧
        mapLookup (ecall_generate_epoch_seed_internal
          (ecall_generate_epoch_seed_internal [] s1).2 s2).2 0 = some e0 ∧
        mapLookup (ecall_generate_epoch_seed_internal
          (ecall_generate_epoch_seed_internal [] s1).2 s2).2 1 = some e1 ∧
        e0.seed = s1 ∧ e1.seed = s2 ∧
        e1.preverified_block_hash = e0.preverified_block_hash := by
  intro s1 s2
  exact ⟨Epoch.mk s1 none PREVERIFIED_BLOCK_HASH, Epoch.mk s2 none PREVERIFIED_BLOCK_HASH,
    rfl, rfl, rfl, rfl, rfl, rfl⟩

/-- C10: with a non-empty header list and a stored epoch, a receipt whose
log list is empty makes `ecall_get_verified_worker_params_internal` panic
on the unconditional `receipt.logs[0]` index instead of returning a
`WorkerAuthError`. -/
theorem verify_worker_params_empty_logs_panics :
    ∀ (m : EpochMap) (rh : List Nat) (headers : List BlockHeader) (receipt : Receipt),
      m ≠ [] → headers ≠ [] → receipt.logs = [] →
      ecall_get_verified_worker_params_internal m receipt rh headers = .panicked := by
  intro m rh headers receipt hm hh hlogs
  obtain ⟨k, e, hk, _, hge⟩ := get_epoch_some_of_ne_nil m hm
  cases headers with
  | nil => exact absurd rfl hh
  | cons h0 hs =>
    rw [ecall_get_verified_worker_params_internal]
    simp only [List.get?, hge, hk, hlogs]

/-- Witness for C10 at a concrete register, header list and empty-log
receipt. -/
theorem verify_worker_params_empty_logs_panics_witness :
    ([(0, Epoch.mk 3 none 0)] : EpochMap) ≠ [] ∧
    ([BlockHeader.mk 5] : List BlockHeader) ≠ [] ∧
    (Receipt.mk []).logs = [] ∧
    ecall_get_verified_worker_params_internal [(0, Epoch.mk 3 none 0)]
      (Receipt.mk []) [] [BlockHeader.mk 5] = .panicked :=
  ⟨List.cons_ne_nil _ _, List.cons_ne_nil _ _, rfl,
    verify_worker_params_empty_logs_panics [(0, Epoch.mk 3 none 0)] []
      [BlockHeader.mk 5] (Receipt.mk []) (List.cons_ne_nil _ _)
      (List.cons_ne_nil _ _) rfl⟩

/-- C1 requires the header chain to be verified against the stored
`preverified_block_hash` and the call to fail whenever the chain does not
connect to that trusted hash.  The code violates it: the `BlockVerifier`
invocation is commented out in the source under a TODO, so the evaluation
below — a stored epoch trusting `PREVERIFIED_BLOCK_HASH` and a single
block header whose parent hash does *not* chain back to it — still decodes
and returns the `WorkerParams` from the first log entry successfully. -/
theorem verify_worker_params_skips_chain_verification :
    chainsBackToTrustedHash [BlockHeader.mk (PREVERIFIED_BLOCK_HASH + 1)]
      (Epoch.mk 5 none PREVERIFIED_BLOCK_HASH).preverified_block_hash = false ∧
    ecall_get_verified_worker_params_internal
      [(0, Epoch.mk 5 none PREVERIFIED_BLOCK_HASH)]
      (Receipt.mk [Log.mk (some ⟨[7]⟩)]) []
      [BlockHeader.mk (PREVERIFIED_BLOCK_HASH + 1)] = .ok ⟨[7]⟩ := by
  constructor
  · decide
  · rfl

end EpochKeeper

namespace WasmU

/-- Counterexample to C2: the boundary call returns a non-success status
code (both as the ecall result and through `retval`), yet `deploy`
returns the copied output buffer as success — the status is never
examined, so a non-success status is *not* surfaced as a task failure. -/
theorem deploy_ok_despite_nonsuccess_status :
    (wasmEnvFail.ecallDeploy [1]).status ≠ .success ∧
    (wasmEnvFail.ecallDeploy [1]).retval ≠ .success ∧
    deploy wasmEnvFail [1] = .ok [7] := by
  refine ⟨?_, ?_, rfl⟩
  · intro h
    cases h
  · intro h
    cases h

/-- C2 amended: `deploy`'s result is independent of the status code the
boundary call returns (and of `retval`); the boundary is invoked at most
once, never retried; and the only error results `deploy` surfaces come
from the local `build_constructor` preprocessing that runs before the
boundary call. -/
theorem deploy_ignores_boundary_status :
    ∀ (env env2 : WasmEnv) (bytecode : List Nat),
      env2.deserializeModule = env.deserializeModule →
      env2.buildModule = env.buildModule →
      env2.serializeModule = env.serializeModule →
      (∀ x, (env2.ecallDeploy x).written = (env.ecallDeploy x).written ∧
            (env2.ecallDeploy x).outputLen = (env.ecallDeploy x).outputLen) →
      deploy env2 bytecode = deploy env bytecode ∧
      (deployEcallInputs env bytecode).length ≤ 1 ∧
      (∀ e, deploy env bytecode = .fail e →
        build_constructor env bytecode = .fail e) := by
  intro env env2 bc h1 h2 h3 h4
  have hbc : build_constructor env2 bc = build_constructor env bc := by
    unfold build_constructor
    rw [h1, h2, h3]
  refine ⟨?_, ?_, ?_⟩
  · unfold deploy
    rw [hbc]
    cases hb : build_constructor env bc with
    | panicked => rfl
    | fail e => rfl
    | ok dbc =>
      obtain ⟨hw, hl⟩ := h4 dbc
      simp only [hw, hl]
  · unfold deployEcallInputs
    cases build_constructor env bc <;> simp
  · intro e h
    cases hb : build_constructor env bc with
    | panicked =>
      have hd : deploy env bc = .panicked := by
        unfold deploy
        rw [hb]
      rw [hd] at h
      cases h
    | fail e2 =>
      have hd : deploy env bc = .fail e2 := by
        unfold deploy
        rw [hb]
      rw [hd] at h
      cases h
      rfl
    | ok dbc =>
      have hd : deploy env bc =
          (if (env.ecallDeploy dbc).outputLen ≤ MAX_EVM_RESULT then
            RunResult.ok ((((env.ecallDeploy dbc).written ++
              List.replicate MAX_EVM_RESULT 0).take MAX_EVM_RESULT).take
                (env.ecallDeploy dbc).outputLen)
          else RunResult.panicked) := by
        unfold deploy
        rw [hb]
      rw [hd] at h
      split at h <;> cases h

/-- Witness for the amended C2: the failure-status and success-status
enclaves produce the same `deploy` result on a concrete input. -/
theorem deploy_ignores_boundary_status_witness :
    deploy wasmEnvFail [1] = deploy wasmEnvOk [1] :=
  (deploy_ignores_boundary_status wasmEnvOk wasmEnvFail [1] rfl rfl rfl
    (fun _ => ⟨rfl, rfl⟩)).1

end WasmU

namespace IpcCore

/-- A lookup that succeeds in a store still succeeds after appending
entries. -/
theorem dbGet_append_left :
    ∀ (db l : DB) (k : DeltaKey) (v : List Nat),
      P2PCalls.dbGet db k = some v → P2PCalls.dbGet (db ++ l) k = some v := by
  intro db l k v
  induction db with
  | nil => intro h; simp [P2PCalls.dbGet] at h
  | cons p rest ih =>
    intro h
    obtain ⟨k1, v1⟩ := p
    rw [List.cons_append]
    simp only [P2PCalls.dbGet] at h ⊢
    by_cases hk : k1 = k
    · rw [if_pos hk] at h ⊢
      exact h
    · rw [if_neg hk] at h ⊢
      exact ih h

/-- Appending a fresh binding makes it found. -/
theorem dbGet_append_fresh :
    ∀ (db : DB) (k : DeltaKey) (d : List Nat),
      P2PCalls.dbGet db k = none → P2PCalls.dbGet (db ++ [(k, d)]) k = some d := by
  intro db k d
  induction db with
  | nil => intro _; simp [P2PCalls.dbGet]
  | cons p rest ih =>
    intro h
    obtain ⟨k1, v1⟩ := p
    rw [List.cons_append]
    simp only [P2PCalls.dbGet] at h ⊢
    by_cases hk : k1 = k
    · rw [if_pos hk] at h
      cases h
    · rw [if_neg hk] at h ⊢
      exact ih h

/-- Source `insert_tuples` never overwrites an existing binding. -/
theorem insert_tuples_preserves :
    ∀ (ts : List (DeltaKey × List Nat)) (db : DB) (k : DeltaKey) (v : List Nat),
      P2PCalls.dbGet db k = some v →
      P2PCalls.dbGet (P2PCalls.insert_tuples db ts).1 k = some v := by
  intro ts
  induction ts with
  | nil => intro db k v h; exact h
  | cons t rest ih =>
    intro db k v h
    obtain ⟨k2, d2⟩ := t
    cases h2 : P2PCalls.dbGet db k2 with
    | some w =>
      have h3 : (P2PCalls.insert_tuples db ((k2, d2) :: rest)).1 =
          (P2PCalls.insert_tuples db rest).1 := by
        simp only [P2PCalls.insert_tuples, h2]
      rw [h3]
      exact ih db k v h
    | none =>
      have h3 : (P2PCalls.insert_tuples db ((k2, d2) :: rest)).1 =
          (P2PCalls.insert_tuples (db ++ [(k2, d2)]) rest).1 := by
        simp only [P2PCalls.insert_tuples, h2]
      rw [h3]
      exact ih (db ++ [(k2, d2)]) k v (dbGet_append_left db [(k2, d2)] k v h)

/-- Source `insert_tuples` returns one result per tuple. -/
theorem insert_tuples_length :
    ∀ (ts : List (DeltaKey × List Nat)) (db : DB),
      (P2PCalls.insert_tuples db ts).2.length = ts.length := by
  intro ts
  induction ts with
  | nil => intro db; rfl
  | cons t rest ih =>
    intro db
    obtain ⟨k, d⟩ := t
    cases h2 : P2PCalls.dbGet db k with
    | some w =>
      have h3 : (P2PCalls.insert_tuples db ((k, d) :: rest)).2 =
          .error (.external ("duplicate insert")) :: (P2PCalls.insert_tuples db rest).2 := by
        simp only [P2PCalls.insert_tuples, h2]
      rw [h3, List.length_cons, ih db]
      rfl
    | none =>
      have h3 : (P2PCalls.insert_tuples db ((k, d) :: rest)).2 =
          .ok () :: (P2PCalls.insert_tuples (db ++ [(k, d)]) rest).2 := by
        simp only [P2PCalls.insert_tuples, h2]
      rw [h3, List.length_cons, ih (db ++ [(k, d)])]
      rfl

/-- Every tuple whose per-item insert result is a success is found in the
store `insert_tuples` returns, bound to its data. -/
theorem insert_tuples_ok_queryable :
    ∀ (ts : List (DeltaKey × List Nat)) (db : DB)
      (p : (DeltaKey × List Nat) × Except HandlerError Unit),
      p ∈ ts.zip (P2PCalls.insert_tuples db ts).2 → p.2 = .ok () →
      P2PCalls.dbGet (P2PCalls.insert_tuples db ts).1 p.1.1 = some p.1.2 := by
  intro ts
  induction ts with
  | nil => intro db p hp _; simp at hp
  | cons t rest ih =>
    intro db p hp hok
    obtain ⟨k, d⟩ := t
    cases h2 : P2PCalls.dbGet db k with
    | some w =>
      have h3 : (P2PCalls.insert_tuples db ((k, d) :: rest)).2 =
          .error (.external ("duplicate insert")) :: (P2PCalls.insert_tuples db rest).2 := by
        simp only [P2PCalls.insert_tuples, h2]
      have h4 : (P2PCalls.insert_tuples db ((k, d) :: rest)).1 =
          (P2PCalls.insert_tuples db rest).1 := by
        simp only [P2PCalls.insert_tuples, h2]
      rw [h3, List.zip_cons_cons] at hp
      rw [h4]
      rcases List.mem_cons.mp hp with hpe | hpm
      · rw [hpe] at hok
        cases hok
      · exact ih db p hpm hok
    | none =>
      have h3 : (P2PCalls.insert_tuples db ((k, d) :: rest)).2 =
          .ok () :: (P2PCalls.insert_tuples (db ++ [(k, d)]) rest).2 := by
        simp only [P2PCalls.insert_tuples, h2]
      have h4 : (P2PCalls.insert_tuples db ((k, d) :: rest)).1 =
          (P2PCalls.insert_tuples (db ++ [(k, d)]) rest).1 := by
        simp only [P2PCalls.insert_tuples, h2]
      rw [h3, List.zip_cons_cons] at hp
      rw [h4]
      rcases List.mem_cons.mp hp with hpe | hpm
      · rw [hpe]
        exact insert_tuples_preserves rest (db ++ [(k, d)]) k d
          (dbGet_append_fresh db k d h2)
      · exact ih (db ++ [(k, d)]) p hpm hok

/-- Inversion of the decoding loop of `update_deltas`: a successful decode
yields one tuple per wire record, every tuple keyed by a delta slot. -/
theorem decode_update_deltas_inv :
    ∀ (ds : List IpcDelta) (ts : List (DeltaKey × List Nat)),
      handling.decode_update_deltas ds = .ok ts →
      ts.length = ds.length ∧ ∀ t ∈ ts, ∃ i, t.1.key_type = Stype.delta i := by
  intro ds
  induction ds with
  | nil =>
    intro ts h
    have h2 : (Except.ok ([] : List (DeltaKey × List Nat)) :
        Except HandlerError (List (DeltaKey × List Nat))) = .ok ts := h
    cases h2
    exact ⟨rfl, fun t ht => absurd ht (List.not_mem_nil t)⟩
  | cons d rest ih =>
    intro ts h
    simp only [handling.decode_update_deltas] at h
    cases hA : d.address with
    | none =>
      simp only [hA] at h
      exact Except.noConfusion h
    | some a =>
      simp only [hA] at h
      cases hH : from_hex_32 a with
      | error e =>
        simp only [hH] at h
        exact Except.noConfusion h
      | ok address =>
        simp only [hH] at h
        cases hD : d.delta with
        | none =>
          simp only [hD] at h
          exact Except.noConfusion h
        | some s =>
          simp only [hD] at h
          cases hE : from_hex_e s with
          | error e =>
            simp only [hE] at h
            exact Except.noConfusion h
          | ok data =>
            simp only [hE] at h
            cases hR : handling.decode_update_deltas rest with
            | error e =>
              simp only [hR] at h
              exact Except.noConfusion h
            | ok restR =>
              simp only [hR] at h
              have h2 : (Except.ok
                  (((⟨address, .delta d.key⟩ : DeltaKey), data) :: restR) :
                  Except HandlerError (List (DeltaKey × List Nat))) = .ok ts := h
              cases h2
              obtain ⟨hl, hk⟩ := ih restR hR
              refine ⟨by rw [List.length_cons, List.length_cons, hl], ?_⟩
              intro t ht
              rcases List.mem_cons.mp ht with rfl | htm
              · exact ⟨d.key, rfl⟩
              · exact hk t htm

/-- The result-assembly loop of `update_deltas` succeeds on delta-keyed
tuples and is position-aligned with the per-item insert results. -/
theorem update_deltas_results_spec :
    ∀ (ts : List (DeltaKey × List Nat)) (rs : List (Except HandlerError Unit)),
      (∀ t ∈ ts, ∃ i, t.1.key_type = Stype.delta i) → rs.length = ts.length →
      ∃ errors, handling.update_deltas_results ts rs = some errors ∧
        errors.length = ts.length ∧
        List.Forall₂ (fun (er : IpcDeltaResult) (r : Except HandlerError Unit) =>
          er.status = status_of r) errors rs := by
  intro ts
  induction ts with
  | nil =>
    intro rs _ hlen
    have h0 : rs = [] := List.length_eq_zero.mp hlen
    subst h0
    exact ⟨[], rfl, rfl, List.Forall₂.nil⟩
  | cons t rest ih =>
    intro rs hkeys hlen
    obtain ⟨k, d⟩ := t
    cases rs with
    | nil => simp at hlen
    | cons r rs2 =>
      obtain ⟨i, hi⟩ := hkeys (k, d) (List.mem_cons_self _ _)
      have hi2 : k.key_type = Stype.delta i := hi
      obtain ⟨errors2, he2, hl2, hf2⟩ := ih rs2
        (fun t ht => hkeys t (List.mem_cons_of_mem _ ht)) (by simpa using hlen)
      refine ⟨⟨to_hex k.hash, i, status_of r⟩ :: errors2, ?_, ?_, ?_⟩
      · simp only [handling.update_deltas_results, hi2, he2]
        cases r with
        | ok u => rfl
        | error e => rfl
      · rw [List.length_cons, List.length_cons, hl2]
      · exact List.Forall₂.cons rfl hf2

/-- C6 holds only for batches in which every tuple decodes: every tuple is
then applied independently by the store, the response is a success whose
`errors` list is position-aligned with the per-item insert results (0 for
an applied tuple, 1 for a rejected one), it has one entry per wire record,
and every successfully applied tuple is queryable from the resulting
store. -/
theorem update_deltas_decoded_batch :
    ∀ (id : String) (ds : List IpcDelta) (db : DB)
      (ts : List (DeltaKey × List Nat)),
      handling.decode_update_deltas ds = .ok ts →
      ∃ errors,
        handling.update_deltas id ds db =
          .done (P2PCalls.insert_tuples db ts).1
            (.ok (.response (.updateDeltas id (.updateDeltasResult 0 errors)))) ∧
        errors.length = ds.length ∧
        List.Forall₂ (fun (er : IpcDeltaResult) (r : Except HandlerError Unit) =>
          er.status = status_of r) errors (P2PCalls.insert_tuples db ts).2 ∧
        (∀ p ∈ ts.zip (P2PCalls.insert_tuples db ts).2, p.2 = .ok () →
          P2PCalls.dbGet (P2PCalls.insert_tuples db ts).1 p.1.1 = some p.1.2) := by
  intro id ds db ts hdec
  obtain ⟨hlen, hkeys⟩ := decode_update_deltas_inv ds ts hdec
  obtain ⟨errors, he, hel, hf⟩ := update_deltas_results_spec ts
    (P2PCalls.insert_tuples db ts).2 hkeys (insert_tuples_length ts db)
  refine ⟨errors, ?_, by rw [hel, hlen], hf,
    fun p hp hok => insert_tuples_ok_queryable ts db p hp hok⟩
  simp only [handling.update_deltas, hdec, he]

/-- Witness for the amended C6: a one-tuple decodable batch against the
empty store. -/
theorem update_deltas_decoded_batch_witness :
    ∃ errors,
      handling.update_deltas ("5") [goodDelta] [] =
        .done (P2PCalls.insert_tuples []
            [((⟨List.replicate 32 170, Stype.delta 0⟩ : DeltaKey), [255])]).1
          (.ok (.response (.updateDeltas ("5") (.updateDeltasResult 0 errors)))) ∧
      errors.length = ([goodDelta] : List IpcDelta).length ∧
      List.Forall₂ (fun (er : IpcDeltaResult) (r : Except HandlerError Unit) =>
        er.status = status_of r) errors
        (P2PCalls.insert_tuples []
          [((⟨List.replicate 32 170, Stype.delta 0⟩ : DeltaKey), [255])]).2 ∧
      (∀ p ∈ ([((⟨List.replicate 32 170, Stype.delta 0⟩ : DeltaKey), [255])] :
          List (DeltaKey × List Nat)).zip
          (P2PCalls.insert_tuples []
            [((⟨List.replicate 32 170, Stype.delta 0⟩ : DeltaKey), [255])]).2,
        p.2 = .ok () →
        P2PCalls.dbGet (P2PCalls.insert_tuples []
          [((⟨List.replicate 32 170, Stype.delta 0⟩ : DeltaKey), [255])]).1 p.1.1 =
          some p.1.2) :=
  update_deltas_decoded_batch ("5") [goodDelta] []
    [((⟨List.replicate 32 170, Stype.delta 0⟩ : DeltaKey), [255])] rfl

/-- Counterexample to C6 as stated: an `UpdateDeltas` request carrying one
well-formed tuple and one malformed tuple (its delta bytes are missing)
does *not* produce a position-aligned per-item result sequence with one
failure and one success — the conversion loop aborts the whole request
with the `P2PErr`, nothing is inserted (the store comes back unchanged),
and the batch-level policy turns the error into the default empty
response. -/
theorem update_deltas_malformed_tuple_aborts_request :
    handling.update_deltas ("5") [goodDelta, badDelta] [] =
      .done [] (.error (.p2p ("UpdateDeltas") ("Delta Data Missing"))) := rfl

/-- C3: `handle_message` is a per-message pipeline over the batch.  First
conjunct: whenever processing completes, it produces exactly one response
per request.  Second conjunct: as long as a message's handler completes
(with success *or* an error `Result`), processing of the remaining
messages continues unchanged, with that message's response — its handler
result, or the default on error — placed at its position in front of the
remaining responses, so a failed message neither aborts nor reorders the
rest of the batch.  Third conjunct: a handler error yields exactly the
default empty message.  (A handler *panic* is the one aborting case; that
behaviour is C9.) -/
theorem handle_message_batch_contract :
    (∀ (env : Env) (db : DB) (reqs : List IpcRequest) (out : DB × List Message),
        handle_message env db reqs = some out → out.2.length = reqs.length) ∧
    (∀ (env : Env) (db db2 : DB) (r : IpcRequest) (rest : List IpcRequest)
        (res : Except HandlerError Message),
        dispatch env db r = .done db2 res →
        handle_message env db (r :: rest) =
          (handle_message env db2 rest).map
            (fun p => (p.1, unwrap_or_default res :: p.2))) ∧
    (∀ e : HandlerError, unwrap_or_default (.error e) = .empty) := by
  refine ⟨?_, ?_, ?_⟩
  · intro env db reqs
    induction reqs generalizing db with
    | nil =>
      intro out h
      have h2 : some (db, ([] : List Message)) = some out := h
      cases h2
      rfl
    | cons r rest ih =>
      intro out h
      simp only [handle_message] at h
      cases hd : dispatch env db r with
      | panicked =>
        rw [hd] at h
        exact Option.noConfusion h
      | done dbb res =>
        simp only [hd] at h
        cases hm : handle_message env dbb rest with
        | none =>
          rw [hm] at h
          exact Option.noConfusion h
        | some p =>
          obtain ⟨db3, ms⟩ := p
          rw [hm] at h
          have h2 : some (db3, unwrap_or_default res :: ms) = some out := h
          cases h2
          have hms : ms.length = rest.length := ih dbb (db3, ms) hm
          show (unwrap_or_default res :: ms).length = (r :: rest).length
          rw [List.length_cons, List.length_cons, hms]
  · intro env db db2 r rest res hd
    simp only [handle_message, hd]
    cases hm : handle_message env db2 rest with
    | none => rfl
    | some p =>
      obtain ⟨a, b⟩ := p
      rfl
  · intro e
    rfl

/-- Witness for C3: a concrete one-message batch completes with exactly
one response. -/
theorem handle_message_batch_contract_witness :
    handle_message envW [] [IpcRequest.getAllAddrs ("7")] =
      some ([], [Message.response (IpcResponse.getAllAddrs ("7")
        (IpcResults.addresses []))]) ∧
    ([Message.response (IpcResponse.getAllAddrs ("7")
      (IpcResults.addresses []))]).length = ([IpcRequest.getAllAddrs ("7")]).length :=
  ⟨rfl, handle_message_batch_contract.1 envW [] [IpcRequest.getAllAddrs ("7")]
    ([], [Message.response (IpcResponse.getAllAddrs ("7") (IpcResults.addresses []))])
    rfl⟩

/-- C9: a `NewTaskEncryptionKey` request whose user public key field does
not hex-decode to exactly 64 bytes makes `get_dh_user_key` panic (the
`unwrap` on the decode, or the fixed-length `clone_from_slice`) instead of
returning an error `Result` — and therefore aborts the processing of the
entire batch it sits in, wherever it sits, producing no responses at
all. -/
theorem new_task_encryption_key_bad_pubkey_panics :
    ∀ (env : Env) (db : DB) (id pk : String) (pre post : List IpcRequest),
      (∀ bs, from_hex pk = some bs → bs.length ≠ 64) →
      dispatch env db (.newTaskEncryptionKey id pk) = .panicked ∧
      handle_message env db (pre ++ .newTaskEncryptionKey id pk :: post) = none := by
  intro env db id pk pre post hpk
  have hdisp : ∀ db0 : DB, dispatch env db0 (.newTaskEncryptionKey id pk) = .panicked := by
    intro db0
    show handling.get_dh_user_key env id pk db0 = .panicked
    unfold handling.get_dh_user_key
    cases hfh : from_hex pk with
    | none => rfl
    | some bs =>
      have h64 : ¬ bs.length = 64 := hpk bs hfh
      simp only [if_neg h64]
  refine ⟨hdisp db, ?_⟩
  induction pre generalizing db with
  | nil =>
    rw [List.nil_append]
    simp only [handle_message]
    rw [hdisp db]
  | cons r rs ih =>
    rw [List.cons_append]
    simp only [handle_message]
    cases hd : dispatch env db r with
    | panicked => rfl
    | done dbb res =>
      show (match handle_message env dbb
          (rs ++ IpcRequest.newTaskEncryptionKey id pk :: post) with
        | none => none
        | some (db3, ms) => some (db3, unwrap_or_default res :: ms)) = none
      rw [ih dbb]

/-- Witness for C9: the empty-string public key hex-decodes to zero bytes,
so its message panics and a batch holding only it yields no responses. -/
theorem new_task_encryption_key_bad_pubkey_panics_witness :
    dispatch envW [] (.newTaskEncryptionKey ("9") ("")) = .panicked ∧
    handle_message envW [] ([] ++ .newTaskEncryptionKey ("9") ("") :: []) = none :=
  new_task_encryption_key_bad_pubkey_panics envW [] ("9") ("") [] []
    (fun bs h => by
      have h2 : (some ([] : List Nat) : Option (List Nat)) = some bs := h
      cases h2
      decide)

end IpcCore
